import Mathlib

/-!
Verification development for `pymol_ts_helper.py`.

The file shallowly embeds the metadata parser, cache and presentation logic of
the script: Python strings become Lean `String`s (manipulated as `List Char`),
the specific regular expressions used by the script become deterministic
scanners proved/argued equivalent to Python's backtracking semantics on the
relevant patterns, file I/O becomes an explicit in-memory file system, and the
module-level cache becomes explicit state passing.
-/

set_option autoImplicit false

namespace PymolTs

/-! ## Python string primitives -/

/-- Python's `\s` character class and `str.strip()` whitespace (ASCII range):
space, tab, newline, carriage return, vertical tab, form feed. -/
def isPySpace (c : Char) : Bool :=
  c = ' ' || c = '\t' || c = '\n' || c = '\r' || c = '\x0b' || c = '\x0c'

/-- `str.lstrip()` (whitespace only). -/
def pyLstrip (s : String) : String :=
  String.mk (s.toList.dropWhile isPySpace)

/-- `str.rstrip()` (whitespace only). -/
def pyRstrip (s : String) : String :=
  String.mk ((s.toList.reverse.dropWhile isPySpace).reverse)

/-- `str.strip()` (whitespace only). -/
def pyStrip (s : String) : String :=
  String.mk (((s.toList.dropWhile isPySpace).reverse.dropWhile isPySpace).reverse)

/-- `str.lstrip(chars)` for an explicit character set. -/
def pyLstripSet (set : List Char) (s : String) : String :=
  String.mk (s.toList.dropWhile (fun c => set.contains c))

/-- `str.rstrip(chars)` for an explicit character set. -/
def pyRstripSet (set : List Char) (s : String) : String :=
  String.mk ((s.toList.reverse.dropWhile (fun c => set.contains c)).reverse)

/-- `str.upper()` (the script only manipulates ASCII header text, where
Python's `upper` agrees with `Char.toUpper`). -/
def pyUpper (s : String) : String :=
  String.mk (s.toList.map Char.toUpper)

def listIsPrefixOf : List Char → List Char → Bool
  | [], _ => true
  | _ :: _, [] => false
  | a :: as, b :: bs => a = b && listIsPrefixOf as bs

/-- `s.startswith(pre)`. -/
def strStartsWith (s pre : String) : Bool :=
  listIsPrefixOf pre.toList s.toList

def listContainsSub (needle : List Char) : List Char → Bool
  | [] => needle.isEmpty
  | c :: t => listIsPrefixOf needle (c :: t) || listContainsSub needle t

/-- Python's `needle in hay` substring test. -/
def strContains (hay needle : String) : Bool :=
  listContainsSub needle.toList hay.toList

/-- `':' in line`. -/
def hasColon (line : String) : Bool :=
  line.toList.contains ':'

/-- `line.split(':', 1)`: pair (before first colon, after first colon), or
`none` when the line has no colon. -/
def splitFirstColonAux (acc : List Char) : List Char → Option (List Char × List Char)
  | [] => none
  | c :: t => if c = ':' then some (acc.reverse, t) else splitFirstColonAux (c :: acc) t

/-- `s.split(None, 1)`: Python whitespace split with maxsplit 1 (leading
whitespace skipped, trailing whitespace of the remainder kept). -/
def splitNoneOnce (s : String) : List String :=
  let cs := s.toList.dropWhile isPySpace
  if cs.isEmpty then []
  else
    let tok := cs.takeWhile (fun c => !isPySpace c)
    let rest := (cs.dropWhile (fun c => !isPySpace c)).dropWhile isPySpace
    if rest.isEmpty then [String.mk tok] else [String.mk tok, String.mk rest]

/-! ## Deterministic scanners for the script's regular expressions

Each regex used by `pymol_ts_helper.py` is over the complementary classes
digits / whitespace / non-whitespace / letters, where greedy maximal-munch
matching coincides with Python's backtracking search, so each pattern is
embedded as a deterministic scanner.  The lazy/greedy subtleties of the
generic key-value pattern are handled explicitly below. -/

/-- Prefix matcher for `[-+]?\d+\.\d+`: returns the remainder on success. -/
def matchSignedDecimal (cs : List Char) : Option (List Char) :=
  let cs1 := match cs with
             | c :: t => if c = '-' || c = '+' then t else c :: t
             | [] => []
  let d1 := cs1.takeWhile Char.isDigit
  if d1.isEmpty then none
  else
    match cs1.dropWhile Char.isDigit with
    | '.' :: r2 =>
      let d2 := r2.takeWhile Char.isDigit
      if d2.isEmpty then none else some (r2.dropWhile Char.isDigit)
    | _ => none

/-- One attempt of `re.search(r'[-+]?\d+\.\d+\s+[-+]?\d+\.\d+\s+[-+]?\d+\.\d+', s)`
anchored at the start of `cs`. -/
def threeDecimalsAt (cs : List Char) : Bool :=
  match matchSignedDecimal cs with
  | none => false
  | some r1 =>
    if (r1.takeWhile isPySpace).isEmpty then false
    else
      match matchSignedDecimal (r1.dropWhile isPySpace) with
      | none => false
      | some r2 =>
        if (r2.takeWhile isPySpace).isEmpty then false
        else (matchSignedDecimal (r2.dropWhile isPySpace)).isSome

/-- The full unanchored search of the three-decimals pattern. -/
def searchThreeDecimals : List Char → Bool
  | [] => false
  | c :: t => threeDecimalsAt (c :: t) || searchThreeDecimals t

def matchNonWsRun (cs : List Char) : Option (List Char) :=
  if (cs.takeWhile (fun c => !isPySpace c)).isEmpty then none
  else some (cs.dropWhile (fun c => !isPySpace c))

def matchWsRun1 (cs : List Char) : Option (List Char) :=
  if (cs.takeWhile isPySpace).isEmpty then none
  else some (cs.dropWhile isPySpace)

def wsThenTok (cs : List Char) : Option (List Char) :=
  (matchWsRun1 cs).bind matchNonWsRun

/-- `re.match(r'^\s*\d+\s+\S+\s+\S+\s+\S+\s+\S+\s+[-+]?\d+\.\d+', s)`:
an integer, four tokens, then a signed decimal (columnar coordinate shape). -/
def matchColumnarShape (cs0 : List Char) : Bool :=
  let cs := cs0.dropWhile isPySpace
  if (cs.takeWhile Char.isDigit).isEmpty then false
  else
    let r := cs.dropWhile Char.isDigit
    match (wsThenTok r).bind (fun a => (wsThenTok a).bind (fun b =>
          (wsThenTok b).bind (fun c => (wsThenTok c).bind matchWsRun1))) with
    | none => false
    | some r5 => (matchSignedDecimal r5).isSome

def coordKeywords : List String := ["ATOM", "HETATM", "TER", "ENDMDL"]

/-- `_looks_like_coordinate_line` (source lines 41-50). -/
def looksLikeCoordinateLine (s : String) : Bool :=
  if s = "" || pyStrip s = "" then false
  else if searchThreeDecimals s.toList then true
  else if coordKeywords.any (fun k => strStartsWith (pyUpper (pyStrip s)) k) then true
  else matchColumnarShape s.toList

/-- `re.match(r'^\s*\d+\s+[A-Z0-9]', val)` — the "noise value" guard used in
`_parse_ts_metadata` (source line 157). -/
def matchesNoiseValue (s : String) : Bool :=
  let cs := s.toList.dropWhile isPySpace
  if (cs.takeWhile Char.isDigit).isEmpty then false
  else
    let r := cs.dropWhile Char.isDigit
    if (r.takeWhile isPySpace).isEmpty then false
    else
      match r.dropWhile isPySpace with
      | c :: _ => c.isUpper || c.isDigit
      | [] => false

/-! ## Alias table and canonical key handling -/

/-- The eight canonical metadata keys (`_KEY_ALIASES` keys, source lines 22-31). -/
inductive CanonKey where
  | STOICH | SCORE | METHOD | AUTHOR | MODEL | FORMAT | TITLE | COMPND
  deriving DecidableEq, Repr

def canonName : CanonKey → String
  | .STOICH => "STOICH"
  | .SCORE => "SCORE"
  | .METHOD => "METHOD"
  | .AUTHOR => "AUTHOR"
  | .MODEL => "MODEL"
  | .FORMAT => "FORMAT"
  | .TITLE => "TITLE"
  | .COMPND => "COMPND"

/-- `_KEY_ALIASES`, in dict (declaration) order. -/
def keyAliases : List (CanonKey × List String) :=
  [(.STOICH, ["STOICH", "STOICHIOMETR", "TOICH", "STOI"]),
   (.SCORE,  ["SCORE", "GDT", "TM_SCORE", "TM-SCORE", "TM", "QMEAN"]),
   (.METHOD, ["METHOD", "ETHOD"]),
   (.AUTHOR, ["AUTHOR", "UTHOR"]),
   (.MODEL,  ["MODEL"]),
   (.FORMAT, ["FORMAT", "FRMAT", "FRM"]),
   (.TITLE,  ["TITLE", "TITL"]),
   (.COMPND, ["COMPND", "COMPOUND", "COMPONENT"])]

def findAliasMatch (lineUpper : String) : List (CanonKey × List String) → Option CanonKey
  | [] => none
  | (canon, aliases) :: rest =>
    if aliases.any (fun a => a ≠ "" && strContains lineUpper a) then some canon
    else findAliasMatch lineUpper rest

def findCanonNameIn (candidate : String) : List (CanonKey × List String) → Option CanonKey
  | [] => none
  | (canon, _) :: rest =>
    if strContains candidate (canonName canon) then some canon
    else findCanonNameIn candidate rest

/-- `_identify_canonical_key` (source lines 74-84). -/
def identifyCanonicalKey (lineUpper leftTokenUpper : String) : Option CanonKey :=
  match findAliasMatch lineUpper keyAliases with
  | some c => some c
  | none =>
    if leftTokenUpper ≠ "" then
      findCanonNameIn (leftTokenUpper ++ String.mk (lineUpper.toList.take 20)) keyAliases
    else none

def valueRstripChars : List Char := [' ', '.', ';']

/-- `_extract_value_from_line` (source lines 86-93). -/
def extractValueFromLine (line : String) : String :=
  match splitFirstColonAux [] line.toList with
  | some (_, after) =>
    pyRstripSet valueRstripChars (pyStrip (pyStrip (String.mk after)))
  | none =>
    match splitNoneOnce (pyStrip line) with
    | [_, second] => pyRstripSet valueRstripChars (pyStrip second)
    | _ => pyRstripSet valueRstripChars (pyStrip line)

/-- The flattened alias list, in `_KEY_ALIASES.values()` order. -/
def allAliasValues : List String := (keyAliases.map (fun p => p.2)).flatten

def cleanLeadingFragmentAux (val : String) (vup : String) : List String → String
  | [] => val
  | a :: rest =>
    if a ≠ "" && strStartsWith vup a then
      let stripped := pyLstripSet [' ', ':', '-', '.'] (String.mk (val.toList.drop a.length))
      if stripped ≠ "" then stripped else cleanLeadingFragmentAux val vup rest
    else cleanLeadingFragmentAux val vup rest

/-- `_clean_leading_fragment` (source lines 95-105). -/
def cleanLeadingFragment (val : String) : String :=
  if val = "" then val
  else cleanLeadingFragmentAux val (pyLstrip (pyUpper val)) allAliasValues

/-! ## Stoichiometry token scanning -/

/-- Drops an optional single `:` or `=` (the `[:=]?` part of the token regex). -/
def dropOptSep (cs : List Char) : List Char :=
  match cs with
  | s :: u => if s = ':' || s = '=' then u else s :: u
  | [] => []

/-- `re.findall(r'([A-Za-z]+)\s*[:=]?\s*(\d+)', text)`: Python's left-to-right
scan; a failed attempt advances one character, which for this pattern is
equivalent to the deterministic scan implemented here.  The scan consumes at
least one character per step, so running it with fuel equal to the input
length is exact (fuel-based structural recursion keeps the definition
kernel-reducible). -/
def scanStoichTokensGo : Nat → List Char → List (String × String)
  | 0, _ => []
  | _, [] => []
  | fuel + 1, c :: t =>
    if c.isAlpha then
      let letters := (c :: t).takeWhile Char.isAlpha
      let r4 := ((dropOptSep (((c :: t).dropWhile Char.isAlpha).dropWhile isPySpace)).dropWhile isPySpace)
      let digits := r4.takeWhile Char.isDigit
      if digits.isEmpty then scanStoichTokensGo fuel t
      else (String.mk letters, String.mk digits) :: scanStoichTokensGo fuel (r4.dropWhile Char.isDigit)
    else scanStoichTokensGo fuel t

def scanStoichTokens (cs : List Char) : List (String × String) :=
  scanStoichTokensGo cs.length cs

/-- `re.findall(r'([A-Za-z]\d+)', text)`: one letter followed by digits. -/
def scanCompactTokensGo : Nat → List Char → List String
  | 0, _ => []
  | _, [] => []
  | fuel + 1, c :: t =>
    if c.isAlpha then
      let digits := t.takeWhile Char.isDigit
      if digits.isEmpty then scanCompactTokensGo fuel t
      else (String.mk (c :: digits)) :: scanCompactTokensGo fuel (t.dropWhile Char.isDigit)
    else scanCompactTokensGo fuel t

def scanCompactTokens (cs : List Char) : List String :=
  scanCompactTokensGo cs.length cs

def dedupStoichAux : List (String × String) → List String → List String
  | [], _ => []
  | (letter, num) :: rest, seen =>
    let key := pyStrip letter
    if seen.contains key then dedupStoichAux rest seen
    else (key ++ num) :: dedupStoichAux rest (seen ++ [key])

/-- `_find_stoich_tokens_in_text` (source lines 114-130). -/
def findStoichTokensInText (text : String) : Option String :=
  if text = "" then none
  else
    let tokens := scanStoichTokens text.toList
    if tokens.isEmpty then
      let compact := scanCompactTokens text.toList
      if compact.isEmpty then none else some (String.join compact)
    else
      let out := dedupStoichAux tokens []
      if out.isEmpty then none else some (String.join out)

/-! ## Score normalization -/

def matchDigitsRun (cs : List Char) : Option (List Char) :=
  let d := cs.takeWhile Char.isDigit
  if d.isEmpty then none else some d

/-- One attempt of `re.search(r'[-+]?\d*\.\d+|\d+', s)` anchored at `cs`,
returning the matched text. -/
def matchNumAt (cs : List Char) : Option (List Char) :=
  let sgn := match cs with
             | c :: _ => if c = '-' || c = '+' then [c] else []
             | [] => []
  let cs1 := cs.drop sgn.length
  let d1 := cs1.takeWhile Char.isDigit
  match cs1.dropWhile Char.isDigit with
  | '.' :: r2 =>
    let d2 := r2.takeWhile Char.isDigit
    if d2.isEmpty then matchDigitsRun cs
    else some (sgn ++ d1 ++ '.' :: d2)
  | _ => matchDigitsRun cs

/-- The unanchored search for the first numeric substring. -/
def searchNum : List Char → Option String
  | [] => none
  | c :: t =>
    match matchNumAt (c :: t) with
    | some m => some (String.mk m)
    | none => searchNum t

/-! ## Header scan state -/

/-- The `out` OrderedDict of `_parse_ts_metadata`, pre-initialised with every
canonical key mapped to `None` (source line 135). -/
structure COut where
  stoich : Option String
  score : Option String
  method : Option String
  author : Option String
  model : Option String
  format : Option String
  title : Option String
  compnd : Option String
  deriving DecidableEq, Repr

def initCOut : COut := ⟨none, none, none, none, none, none, none, none⟩

def COut.get (o : COut) : CanonKey → Option String
  | .STOICH => o.stoich
  | .SCORE => o.score
  | .METHOD => o.method
  | .AUTHOR => o.author
  | .MODEL => o.model
  | .FORMAT => o.format
  | .TITLE => o.title
  | .COMPND => o.compnd

/-- `out[canon] = val`. -/
def setCanonVal (o : COut) : CanonKey → String → COut
  | .STOICH, v => { o with stoich := some v }
  | .SCORE, v => { o with score := some v }
  | .METHOD, v => { o with method := some v }
  | .AUTHOR, v => { o with author := some v }
  | .MODEL, v => { o with model := some v }
  | .FORMAT, v => { o with format := some v }
  | .TITLE, v => { o with title := some v }
  | .COMPND, v => { o with compnd := some v }

/-- The mutable state of the header-scan loop in `_parse_ts_metadata`:
`out`, `remarks` and `other` (insertion order preserved). -/
structure HSt where
  out : COut
  remarks : List String
  other : List (String × String)
  deriving DecidableEq, Repr

def initHSt : HSt := ⟨initCOut, [], []⟩

/-! ## The generic key:value pattern

`re.match(r'^\s*([A-Za-z0-9_\- ]{1,60}?)\s*[:\-]\s*(.+)$', line)`, with
Python's backtracking order made explicit: the leading `\s*` is greedy
(longest whitespace prefix first), the key group is lazy (shortest key
first); the inner `\s*[:\-]\s*` and the trailing `(.+)$` are deterministic
except that when everything after the separator is whitespace, `(.+)`
captures exactly the last character. -/

def genericKeyChar (c : Char) : Bool :=
  c.isAlpha || c.isDigit || c = '_' || c = '-' || c = ' '

/-- Match `\s*[:\-]\s*(.+)$` against the characters after the key; returns
the raw capture of group 2. -/
def genericAfterKey (cs : List Char) : Option String :=
  match cs.dropWhile isPySpace with
  | c :: t =>
    if c = ':' || c = '-' then
      let w := t.dropWhile isPySpace
      if !w.isEmpty then some (String.mk w)
      else if !t.isEmpty then some (String.mk (t.drop (t.length - 1)))
      else none
    else none
  | [] => none

/-- Try key lengths `k, k+1, ...` (lazy group) with `fuel` attempts left. -/
def genericTryKeysAux (cs : List Char) : Nat → Nat → Option (String × String)
  | _, 0 => none
  | k, fuel + 1 =>
    let key := cs.take k
    if key.length = k && key.all genericKeyChar then
      match genericAfterKey (cs.drop k) with
      | some g2 => some (String.mk key, g2)
      | none => genericTryKeysAux cs (k + 1) fuel
    else none

/-- Try whitespace-prefix lengths `wsLen, wsLen-1, ..., 0` (greedy `^\s*`). -/
def genericMatchWs (line : List Char) : Nat → Option (String × String)
  | 0 => genericTryKeysAux line 1 60
  | n + 1 =>
    match genericTryKeysAux (line.drop (n + 1)) 1 60 with
    | some r => some r
    | none => genericMatchWs line n

/-- The full generic key-value regex match; returns the raw groups. -/
def genericMatch (line : String) : Option (String × String) :=
  genericMatchWs line.toList ((line.toList.takeWhile isPySpace).length)

/-! ## One iteration of the header-scan loop (source lines 148-172) -/

/-- The action the loop body takes on a non-blank, non-coordinate line. -/
inductive HeadAction where
  | remark (s : String)
  | storeCanon (k : CanonKey) (v : String)
  | skipCanon
  | storeGeneric (k v : String)
  | skipGeneric
  | storeLineTag (tag s : String)
  | skipLine
  deriving DecidableEq, Repr

/-- `left_token` (source line 152). -/
def leftToken (line : String) : String :=
  if hasColon line then
    match splitFirstColonAux [] line.toList with
    | some (before, _) => pyUpper (pyStrip (String.mk before))
    | none => ""
  else
    match splitNoneOnce (pyStrip line) with
    | tok :: _ => pyUpper tok
    | [] => ""

/-- The branch structure of the loop body, given the keys currently present
in `other` (needed for the duplicate checks of the two fallbacks). -/
def classifyHeaderLine (otherKeys : List String) (i : Nat) (line : String) : HeadAction :=
  if strStartsWith (pyStrip (pyUpper line)) "REMARK" then
    .remark (pyStrip line)
  else
    match identifyCanonicalKey (pyUpper line) (leftToken line) with
    | some canon =>
      if looksLikeCoordinateLine (cleanLeadingFragment (extractValueFromLine line)) ||
         matchesNoiseValue (cleanLeadingFragment (extractValueFromLine line)) then .skipCanon
      else if cleanLeadingFragment (extractValueFromLine line) ≠ "" then
        .storeCanon canon (cleanLeadingFragment (extractValueFromLine line))
      else .skipCanon
    | none =>
      match genericMatch line with
      | some (g1, g2) =>
        if pyStrip g1 ≠ "" && pyStrip g2 ≠ "" && !otherKeys.contains (pyStrip g1) then
          .storeGeneric (pyStrip g1) (pyStrip g2)
        else .skipGeneric
      | none =>
        if line ≠ "" && (pyStrip line).length < 300 then
          if !otherKeys.contains ("LINE_" ++ toString i) then
            .storeLineTag ("LINE_" ++ toString i) (pyStrip line)
          else .skipLine
        else .skipLine

/-- The state update each action performs. -/
def applyHeadAction (st : HSt) : HeadAction → HSt
  | .remark s => { st with remarks := st.remarks ++ [s] }
  | .storeCanon k v => { st with out := setCanonVal st.out k v }
  | .storeGeneric k v => { st with other := st.other ++ [(k, v)] }
  | .storeLineTag tag s => { st with other := st.other ++ [(tag, s)] }
  | .skipCanon => st
  | .skipGeneric => st
  | .skipLine => st

/-- The loop body for one non-blank, non-coordinate line. -/
def processHeaderLine (st : HSt) (i : Nat) (line : String) : HSt :=
  applyHeadAction st (classifyHeaderLine (st.other.map (fun p => p.1)) i line)

/-- The header-scan loop (source lines 140-172): 0-based enumeration,
`break` when `i > max_header_lines`, skip blank lines, `break` at the first
coordinate-like line, else run the loop body. -/
def headerScanAux (maxH : Nat) : Nat → HSt → List String → HSt
  | _, st, [] => st
  | i, st, line :: rest =>
    if i > maxH then st
    else if pyStrip line = "" then headerScanAux maxH (i + 1) st rest
    else if looksLikeCoordinateLine line then st
    else headerScanAux maxH (i + 1) (processHeaderLine st i line) rest

/-! ## Post-processing and record assembly (source lines 176-198) -/

/-- Python truthiness of `out.get(k)` (`None` and `''` are falsy). -/
def truthyOpt : Option String → Bool
  | some v => v ≠ ""
  | none => false

/-- `result[k] = out.get(k) or None`. -/
def orNone : Option String → Option String
  | some ("") => none
  | some v => some v
  | none => none

/-- The stoichiometry back-fill (source lines 177-184).  In the source,
`out.get('STOICHIOMETRY')` is always `None` (that key is never created), and
`'STOICH' in out` is always true (`out` is pre-initialised), so the guard
reduces to the truthiness of `out['STOICH']` and the found value is always
stored under `STOICH`. -/
def postProcessStoich (st : HSt) (fullText : String) : COut :=
  if truthyOpt st.out.stoich then st.out
  else
    match findStoichTokensInText fullText with
    | some found => { st.out with stoich := some found }
    | none => st.out

/-- The score normalisation (source lines 187-190) on the stored value:
when truthy, replace it by the first numeric substring if one is found. -/
def normalizeScoreOpt (sc : Option String) : Option String :=
  if truthyOpt sc then
    match searchNum (match sc with | some s => s.toList | none => []) with
    | some m => some m
    | none => sc
  else sc

/-- Both post-processing passes (source lines 176-190). -/
def postProcess (st : HSt) (fullText : String) : COut :=
  { postProcessStoich st fullText with
    score := normalizeScoreOpt (postProcessStoich st fullText).score }

/-- The final parsed record: an entry for every canonical key, the remark
list, and `other` (kept as a possibly-empty association list; the source
includes the `OTHER` key only when non-empty). -/
structure Record where
  stoich : Option String
  score : Option String
  method : Option String
  author : Option String
  model : Option String
  format : Option String
  title : Option String
  compnd : Option String
  remarks : List String
  other : List (String × String)
  deriving DecidableEq, Repr

def assembleRecord (st : HSt) (fullText : String) : Record :=
  let o := postProcess st fullText
  { stoich := orNone o.stoich, score := orNone o.score, method := orNone o.method,
    author := orNone o.author, model := orNone o.model, format := orNone o.format,
    title := orNone o.title, compnd := orNone o.compnd,
    remarks := st.remarks, other := st.other }

/-- `_collect_all_text`: the whole file content; files are modelled as lists
of newline-free lines, so the content is their newline join. -/
def collectAllText (lines : List String) : String :=
  String.intercalate ("\n") lines

/-- `_parse_ts_metadata` on the lines of an already-opened file. -/
def parseLines (lines : List String) (maxHeaderLines : Nat) : Record :=
  assembleRecord (headerScanAux maxHeaderLines 0 initHSt lines) (collectAllText lines)

/-! ## File system and top-level parse -/

/-- An in-memory file system: file path to lines (newline-free), plus the
`os.path.expanduser` mapping. -/
structure FS where
  files : List (String × List String)
  expand : String → String

/-- `os.path.exists` (note `os.path.exists('')` is `False`, which also covers
the `not ts_path` guard for an empty path string). -/
def pathExists (fs : FS) (p : String) : Bool :=
  p ≠ "" && fs.files.any (fun e => e.1 = p)

def fileLines (fs : FS) (p : String) : List String :=
  match fs.files.find? (fun e => e.1 = p) with
  | some e => e.2
  | none => []

/-- `_parse_ts_metadata` (source lines 132-198): `None` when the path is
falsy or does not exist, otherwise the parsed record. -/
def parseTsMetadata (fs : FS) (tsPath : String) (maxHeaderLines : Nat) : Option Record :=
  if !pathExists fs tsPath then none
  else some (parseLines (fileLines fs tsPath) maxHeaderLines)

/-! ## Presentation (`_pretty_print_trimmed`, source lines 200-214) -/

/-- `_FRIENDLY.get(k, k)` (source lines 33-39). -/
def friendlyLabel : CanonKey → String
  | .STOICH => "Stoichiometry"
  | .SCORE => "Score(s)"
  | .METHOD => "Method"
  | .AUTHOR => "Author"
  | .MODEL => "Model"
  | k => canonName k

def Record.getField (r : Record) : CanonKey → Option String
  | .STOICH => r.stoich
  | .SCORE => r.score
  | .METHOD => r.method
  | .AUTHOR => r.author
  | .MODEL => r.model
  | .FORMAT => r.format
  | .TITLE => r.title
  | .COMPND => r.compnd

def printOrder : List CanonKey := [.STOICH, .AUTHOR, .METHOD, .SCORE, .MODEL]

/-- The field lines the loop prints, in order; `any_printed` in the source is
equivalent to this list being non-empty. -/
def renderFieldLines (r : Record) : List String :=
  (printOrder.map (fun k =>
    match r.getField k with
    | some v => if v ≠ "" then [friendlyLabel k ++ ": " ++ v] else []
    | none => [])).flatten

/-- `_pretty_print_trimmed` as the list of printed lines. -/
def prettyPrintTrimmed (key : String) (meta : Option Record) : List String :=
  let hdr := "=== TS metadata for: " ++ key ++ " ==="
  match meta with
  | none => [hdr, "  (no TS metadata available)"]
  | some r =>
    let fls := renderFieldLines r
    if fls.isEmpty then [hdr, "  (no recognized metadata fields found)"]
    else hdr :: fls

/-- The Render operation as the specification describes it: a fixed-order
listing of exactly STOICH, AUTHOR, METHOD, SCORE, MODEL under their friendly
labels, restricted to non-empty fields; a single notice when none is
non-empty; a different notice when the record is absent. -/
def renderSpecSide (key : String) (meta : Option Record) : List String :=
  match meta with
  | none => ["=== TS metadata for: " ++ key ++ " ===", "  (no TS metadata available)"]
  | some r =>
    let pairs : List (String × Option String) :=
      [("Stoichiometry", r.stoich), ("Author", r.author), ("Method", r.method),
       ("Score(s)", r.score), ("Model", r.model)]
    let fls := pairs.filterMap (fun p =>
      match p.2 with
      | some v => if v ≠ "" then some (p.1 ++ ": " ++ v) else none
      | none => none)
    if fls.isEmpty then
      ["=== TS metadata for: " ++ key ++ " ===", "  (no recognized metadata fields found)"]
    else ("=== TS metadata for: " ++ key ++ " ===") :: fls

/-! ## Cache, attach and show (source lines 19, 305-335, 350-438) -/

/-- `_TS_META_CACHE`: logical key to stored record; a stored `none` is the
cached absence written by `load_model_with_ts` when no TS file was found. -/
abbrev Cache := List (String × Option Record)

/-- Raw dict lookup: distinguishes "missing" from "stored `None`". -/
def cacheGet (cache : Cache) (k : String) : Option (Option Record) :=
  match cache.find? (fun e => e.1 = k) with
  | some e => some e.2
  | none => none

/-- `_TS_META_CACHE.get(key)`: Python's `dict.get` returns `None` both when
the key is missing and when the stored value is `None`. -/
def pyDictGet (cache : Cache) (k : String) : Option Record :=
  match cacheGet cache k with
  | some v => v
  | none => none

/-- `_TS_META_CACHE[k] = v`. -/
def cacheSet (cache : Cache) (k : String) (v : Option Record) : Cache :=
  if cache.any (fun e => e.1 = k) then
    cache.map (fun e => if e.1 = k then (k, v) else e)
  else cache ++ [(k, v)]

inductive AttachOutcome where
  | tsNotFound (path : String)
  | ambiguous (ms : List String)
  | objNotFound
  | parseFailed
  | attached (obj : String)
  deriving DecidableEq, Repr

/-- The tail of `attach_ts` once the object is resolved: parse, then the
`if not res` guard (the parsed dict is always non-empty, so its Python
truthiness is exactly `res is not None`), then cache and report. -/
def attachFinish (fs : FS) (cache : Cache) (p objName : String) : AttachOutcome × Cache :=
  match parseTsMetadata fs p 2000 with
  | none => (.parseFailed, cache)
  | some res => (.attached objName, cacheSet cache objName (some res))

/-- `attach_ts` (source lines 305-335). -/
def attachTs (fs : FS) (cache : Cache) (objs : List String)
    (tsPath objIdentifier : String) : AttachOutcome × Cache :=
  if !pathExists fs (fs.expand tsPath) then (.tsNotFound (fs.expand tsPath), cache)
  else if objs.contains objIdentifier then
    attachFinish fs cache (fs.expand tsPath) objIdentifier
  else
    match objs.filter (fun n => strContains n objIdentifier) with
    | [m] => attachFinish fs cache (fs.expand tsPath) m
    | [] => (.objNotFound, cache)
    | ms => (.ambiguous ms, cache)

/-- `os.path.basename` (POSIX). -/
def osBasename (p : String) : String :=
  String.mk ((p.toList.reverse.takeWhile (fun c => c ≠ '/')).reverse)

/-- `os.path.splitext(bn)[0]` for a basename: split at the last dot provided
some earlier character of the basename is not a dot. -/
def splitextRoot (bn : String) : String :=
  let cs := bn.toList
  let afterDot := cs.reverse.takeWhile (fun c => c ≠ '.')
  if afterDot.length = cs.length then bn
  else
    let root := cs.take (cs.length - afterDot.length - 1)
    if root.any (fun c => c ≠ '.') then String.mk root else bn

inductive ShowOutcome where
  | cachedRender (meta : Record)
  | explicitParsed (path : String)
  | explicitParseFailed (path : String)
  | explicitNotFound (path : String)
  | discoveredParsed (path key : String)
  | discoveredParseFailed (path : String)
  | nothingFound
  deriving DecidableEq, Repr

/-- The candidate selection of `_show_for_key` (source lines 396-410):
exact-basename matches first, then substring matches, first hit wins. -/
def discoverChosen (candidates : List String) (key : String) : Option String :=
  let keyUp := pyUpper key
  let basematches := candidates.filter
    (fun p => pyUpper (splitextRoot (osBasename p)) = keyUp)
  let substrmatches := candidates.filter
    (fun p => pyUpper (splitextRoot (osBasename p)) ≠ keyUp &&
              strContains (pyUpper (osBasename p)) keyUp)
  match basematches with
  | p :: _ => some p
  | [] =>
    match substrmatches with
    | p :: _ => some p
    | [] => none

/-- The object-name fallback of `_show_for_key` (source lines 413-424):
the first open object that matches the key and has a candidate whose
basename contains the object name; the cache key is rebound to the object. -/
def objFallback (objs : List String) (candidates : List String) (key : String) :
    Option (String × String) :=
  match objs with
  | [] => none
  | n :: rest =>
    if key = n || strContains n key then
      match candidates.find? (fun p => strContains (pyUpper (osBasename p)) (pyUpper n)) with
      | some p => some (p, n)
      | none => objFallback rest candidates key
    else objFallback rest candidates key

/-- `_show_for_key` (source lines 350-438).  `candidates` abstracts the
directory listing `_gather_candidates` performs over the fixed search
directories (pure filesystem glue).  The first step is the cache check:
`meta = _TS_META_CACHE.get(key); if meta is not None: render; return True`.
An explicit TS argument is Python-truthy only when non-empty. -/
def showForKey (fs : FS) (cache : Cache) (objs : List String) (key : String)
    (explicitTs : Option String) (candidates : List String) : ShowOutcome × Cache :=
  match pyDictGet cache key with
  | some m => (.cachedRender m, cache)
  | none =>
    let ets? := match explicitTs with
                | some e => if e = "" then none else some e
                | none => none
    match ets? with
    | some ets =>
      let tsExp := fs.expand ets
      if pathExists fs tsExp then
        match parseTsMetadata fs tsExp 2000 with
        | some parsed => (.explicitParsed tsExp, cacheSet cache key (some parsed))
        | none => (.explicitParseFailed tsExp, cache)
      else (.explicitNotFound ets, cache)
    | none =>
      match discoverChosen candidates key with
      | some chosen =>
        match parseTsMetadata fs chosen 2000 with
        | some parsed => (.discoveredParsed chosen key, cacheSet cache key (some parsed))
        | none => (.discoveredParseFailed chosen, cache)
      | none =>
        match objFallback objs candidates key with
        | some (chosen, newKey) =>
          match parseTsMetadata fs chosen 2000 with
          | some parsed => (.discoveredParsed chosen newKey, cacheSet cache newKey (some parsed))
          | none => (.discoveredParseFailed chosen, cache)
        | none => (.nothingFound, cache)

/-! ## Concrete inputs used by the claims -/

/-- The coordinate line of the spec's testable property. -/
def atomLine : String :=
  "ATOM      1  N   ALA A   1      11.104  13.207   2.428  1.00 20.00           N"

/-! ## Claim theorems -/

/-- C5: for an input file whose header contains the line
"SCORE: GDT 0.8231 (model 1)", the parsed record's SCORE field equals
"0.8231": the leading "GDT" alias fragment is stripped and the value is
reduced to its first numeric substring. -/
theorem c5_score_gdt_line_resolves :
    (parseLines ["SCORE: GDT 0.8231 (model 1)"] 2000).score = some ("0.8231") := by
  decide

/-- C6: for a file with lines "A: 2" and "B: 3" and no recognized
stoichiometry header, post-processing synthesizes the stoichiometry "A2B3":
distinct letter-groups with their digits in first-seen order. -/
theorem c6_stoich_synthesized_a2b3 :
    (parseLines ["A: 2", "B: 3"] 2000).stoich = some ("A2B3") := by
  decide

/-- The file system used for the C1 evidence: one discoverable TS file. -/
def fsC1 : FS := ⟨[("m.txt", ["METHOD: x"])], id⟩

/-- C1: a cached absence does NOT short-circuit.  `load_model_with_ts` stores
`None` under the key when no TS file is found, but `_show_for_key` reads the
cache with `dict.get`, which cannot distinguish that stored `None` from a
missing key, so the call falls through to auto-discovery and re-parses (and
overwrites the cached absence) instead of rendering from the cache. -/
theorem c1_cached_absence_triggers_rediscovery :
    cacheGet [("m", none)] "m" = some none ∧
    showForKey fsC1 [("m", none)] [] "m" none ["m.txt"] =
      (.discoveredParsed ("m.txt") ("m"),
       cacheSet [("m", none)] "m" (some (parseLines ["METHOD: x"] 2000))) := by
  constructor
  · rfl
  · decide

/-- C2 counterexample: the header line "SCORE:" is non-blank and not
coordinate-like, yet processing it changes nothing — it is recognized as the
canonical key SCORE but its extracted value is empty, so it is attributed to
none of the four buckets, refuting "never zero". -/
theorem c2_counterexample_zero_buckets :
    pyStrip ("SCORE:") ≠ "" ∧
    looksLikeCoordinateLine ("SCORE:") = false ∧
    identifyCanonicalKey (pyUpper ("SCORE:")) (leftToken ("SCORE:")) = some CanonKey.SCORE ∧
    processHeaderLine initHSt 0 ("SCORE:") = initHSt := by
  refine ⟨by decide, by decide, by decide, by decide⟩

/-- C3 counterexample: with `max_header_lines = 0`, the line with 0-based
index 0 (which is `≥ max_header_lines`) is still examined and contributes a
canonical field — the loop breaks only when `i > max_header_lines`. -/
theorem c3_counterexample_line_at_cap_examined :
    (parseLines ["METHOD: x"] 0).method = some ("x") := by
  decide

/-- C4 counterexample: with the coordinate line first, the later line "B2"
still contributes to the canonical STOICH field, because the stoichiometry
post-processing re-scans the entire file text after the header scan stopped. -/
theorem c4_counterexample_later_line_contributes :
    (parseLines [atomLine, "B2"] 2000).stoich = some ("ATOM1A1B2") ∧
    (parseLines [atomLine] 2000).stoich = some ("ATOM1A1") := by
  refine ⟨by decide, by decide⟩

/-- C9 counterexample: METHOD is recognized on both lines, the value
extracted from the last such line is empty, and the record keeps the value
of the first line — a recognized occurrence with an empty value does not
overwrite, refuting "each recognized occurrence overwrites". -/
theorem c9_counterexample_empty_value_does_not_overwrite :
    identifyCanonicalKey (pyUpper ("METHOD: alpha")) (leftToken ("METHOD: alpha"))
      = some CanonKey.METHOD ∧
    identifyCanonicalKey (pyUpper ("METHOD:")) (leftToken ("METHOD:"))
      = some CanonKey.METHOD ∧
    cleanLeadingFragment (extractValueFromLine ("METHOD:")) = "" ∧
    (parseLines ["METHOD: alpha", "METHOD:"] 2000).method = some ("alpha") := by
  refine ⟨by decide, by decide, by decide, by decide⟩

/-! ## Helper lemmas -/

theorem classify_remark_payload (ks : List String) (i : Nat) (line s : String)
    (h : classifyHeaderLine ks i line = .remark s) : s = pyStrip line := by
  unfold classifyHeaderLine at h
  split at h
  · injection h with h1
    exact h1.symm
  · split at h
    · split at h
      · simp at h
      · split at h
        · simp at h
        · simp at h
    · split at h
      · split at h
        · simp at h
        · simp at h
      · split at h
        · split at h
          · simp at h
          · simp at h
        · simp at h

/-- C2 (amended): every non-blank, non-coordinate header line is attributed
to at most one of the buckets remarks / canonical fields / other: one loop
iteration changes at most one of the three state components, a remark
appends exactly the stripped line, and a change to `other` appends exactly
one entry.  (A line may be attributed to zero buckets, per the
counterexample.) -/
theorem c2_header_line_at_most_one_bucket (st : HSt) (i : Nat) (line : String) :
    ((processHeaderLine st i line).remarks ≠ st.remarks →
      (processHeaderLine st i line).out = st.out ∧
      (processHeaderLine st i line).other = st.other ∧
      (processHeaderLine st i line).remarks = st.remarks ++ [pyStrip line]) ∧
    ((processHeaderLine st i line).out ≠ st.out →
      (processHeaderLine st i line).remarks = st.remarks ∧
      (processHeaderLine st i line).other = st.other) ∧
    ((processHeaderLine st i line).other ≠ st.other →
      (processHeaderLine st i line).remarks = st.remarks ∧
      (processHeaderLine st i line).out = st.out ∧
      ∃ k v, (processHeaderLine st i line).other = st.other ++ [(k, v)]) := by
  have hv : processHeaderLine st i line
      = applyHeadAction st (classifyHeaderLine (st.other.map (fun p => p.1)) i line) := rfl
  cases h : classifyHeaderLine (st.other.map (fun p => p.1)) i line with
  | remark s =>
    rw [h] at hv
    have hs := classify_remark_payload _ _ _ _ h
    subst hs
    rw [hv]
    exact ⟨fun _ => ⟨rfl, rfl, rfl⟩, fun hh => absurd rfl hh, fun hh => absurd rfl hh⟩
  | storeCanon k v =>
    rw [h] at hv
    rw [hv]
    exact ⟨fun hh => absurd rfl hh, fun _ => ⟨rfl, rfl⟩, fun hh => absurd rfl hh⟩
  | skipCanon =>
    rw [h] at hv
    rw [hv]
    exact ⟨fun hh => absurd rfl hh, fun hh => absurd rfl hh, fun hh => absurd rfl hh⟩
  | storeGeneric k v =>
    rw [h] at hv
    rw [hv]
    exact ⟨fun hh => absurd rfl hh, fun hh => absurd rfl hh,
           fun _ => ⟨rfl, rfl, k, v, rfl⟩⟩
  | skipGeneric =>
    rw [h] at hv
    rw [hv]
    exact ⟨fun hh => absurd rfl hh, fun hh => absurd rfl hh, fun hh => absurd rfl hh⟩
  | storeLineTag tag s =>
    rw [h] at hv
    rw [hv]
    exact ⟨fun hh => absurd rfl hh, fun hh => absurd rfl hh,
           fun _ => ⟨rfl, rfl, tag, s, rfl⟩⟩
  | skipLine =>
    rw [h] at hv
    rw [hv]
    exact ⟨fun hh => absurd rfl hh, fun hh => absurd rfl hh, fun hh => absurd rfl hh⟩

/-- Witness for C2: a remark line changes only the remarks bucket. -/
theorem c2_header_line_at_most_one_bucket_witness :
    (processHeaderLine initHSt 0 ("REMARK hi")).out = initHSt.out ∧
    (processHeaderLine initHSt 0 ("REMARK hi")).other = initHSt.other ∧
    (processHeaderLine initHSt 0 ("REMARK hi")).remarks = initHSt.remarks ++ [pyStrip ("REMARK hi")] :=
  (c2_header_line_at_most_one_bucket initHSt 0 ("REMARK hi")).1 (by decide)

theorem headerScanAux_take (maxH : Nat) :
    ∀ (ls : List String) (i : Nat) (st : HSt),
      headerScanAux maxH i st ls = headerScanAux maxH i st (ls.take (maxH + 1 - i)) := by
  intro ls
  induction ls with
  | nil => intro i st; simp [List.take]
  | cons l rest ih =>
    intro i st
    by_cases hcap : i > maxH
    · have h0 : maxH + 1 - i = 0 := by omega
      rw [h0]
      simp only [List.take, headerScanAux, if_pos hcap]
    · have hpos : maxH + 1 - i = (maxH + 1 - (i + 1)) + 1 := by omega
      rw [hpos]
      simp only [List.take, headerScanAux, if_neg hcap]
      by_cases hb : pyStrip l = ""
      · simp only [if_pos hb]
        exact ih (i + 1) st
      · simp only [if_neg hb]
        by_cases hc : looksLikeCoordinateLine l = true
        · simp only [hc, if_true]
        · simp only [hc, if_false]
          exact ih (i + 1) (processHeaderLine st i l)

/-- C3 (amended): the header scan examines at most the first
`max_header_lines + 1` lines — the loop's `i > max_header_lines` break is
off by one, so the line with index exactly `max_header_lines` is still
processed, and no line with a strictly greater index affects the scan
state.  (The stoichiometry post-processing separately re-reads the whole
file and is outside the header scan.) -/
theorem c3_header_scan_reads_at_most_cap_plus_one (maxH : Nat) (ls : List String) :
    headerScanAux maxH 0 initHSt ls = headerScanAux maxH 0 initHSt (ls.take (maxH + 1)) := by
  have h := headerScanAux_take maxH ls 0 initHSt
  simpa using h

theorem coord_line_nonblank (s : String) (h : looksLikeCoordinateLine s = true) :
    pyStrip s ≠ "" := by
  unfold looksLikeCoordinateLine at h
  split at h
  · exact absurd h (by simp)
  · rename_i hcond
    intro hb
    exact hcond (by simp [hb])

theorem headerScanAux_stop_at_coord (maxH : Nat) (c : String) (rest : List String)
    (hc : looksLikeCoordinateLine c = true) :
    ∀ (p : List String) (i : Nat) (st : HSt),
      (∀ x ∈ p, looksLikeCoordinateLine x = false) →
      headerScanAux maxH i st (p ++ c :: rest) = headerScanAux maxH i st p := by
  intro p
  induction p with
  | nil =>
    intro i st _
    by_cases hcap : i > maxH
    · simp [headerScanAux, if_pos hcap]
    · have hb : ¬ pyStrip c = "" := coord_line_nonblank c hc
      simp [headerScanAux, if_neg hcap, hb, hc]
  | cons x p ih =>
    intro i st hp
    have hx : looksLikeCoordinateLine x = false := hp x (by simp)
    have hp' : ∀ y ∈ p, looksLikeCoordinateLine y = false :=
      fun y hy => hp y (by simp [hy])
    by_cases hcap : i > maxH
    · simp [headerScanAux, if_pos hcap]
    · by_cases hb : pyStrip x = ""
      · simp only [List.cons_append, headerScanAux, if_neg hcap, if_pos hb]
        exact ih (i + 1) st hp'
      · simp only [List.cons_append, headerScanAux, if_neg hcap, if_neg hb, hx,
                   Bool.false_eq_true, if_false]
        exact ih (i + 1) (processHeaderLine st i x) hp'

theorem postProcessStoich_nonstoich (st : HSt) (t : String) :
    (postProcessStoich st t).score = st.out.score ∧
    (postProcessStoich st t).method = st.out.method ∧
    (postProcessStoich st t).author = st.out.author ∧
    (postProcessStoich st t).model = st.out.model ∧
    (postProcessStoich st t).format = st.out.format ∧
    (postProcessStoich st t).title = st.out.title ∧
    (postProcessStoich st t).compnd = st.out.compnd := by
  unfold postProcessStoich
  split
  · exact ⟨rfl, rfl, rfl, rfl, rfl, rfl, rfl⟩
  · split
    · exact ⟨rfl, rfl, rfl, rfl, rfl, rfl, rfl⟩
    · exact ⟨rfl, rfl, rfl, rfl, rfl, rfl, rfl⟩

/-- C4 (amended): a coordinate-like line halts the header scan permanently —
no later line is captured by the header scan, so remarks, `other`, and every
canonical field except the separately synthesized STOICH are exactly those of
the file truncated at the coordinate line.  (STOICH is excluded because its
post-processing re-reads the whole file, per the counterexample.) -/
theorem c4_coordinate_line_halts_header_capture (maxH : Nat) (p : List String)
    (c : String) (rest : List String)
    (hp : ∀ x ∈ p, looksLikeCoordinateLine x = false)
    (hc : looksLikeCoordinateLine c = true) :
    (parseLines (p ++ c :: rest) maxH).remarks = (parseLines p maxH).remarks ∧
    (parseLines (p ++ c :: rest) maxH).other = (parseLines p maxH).other ∧
    (parseLines (p ++ c :: rest) maxH).score = (parseLines p maxH).score ∧
    (parseLines (p ++ c :: rest) maxH).method = (parseLines p maxH).method ∧
    (parseLines (p ++ c :: rest) maxH).author = (parseLines p maxH).author ∧
    (parseLines (p ++ c :: rest) maxH).model = (parseLines p maxH).model ∧
    (parseLines (p ++ c :: rest) maxH).format = (parseLines p maxH).format ∧
    (parseLines (p ++ c :: rest) maxH).title = (parseLines p maxH).title ∧
    (parseLines (p ++ c :: rest) maxH).compnd = (parseLines p maxH).compnd := by
  have hscan : headerScanAux maxH 0 initHSt (p ++ c :: rest)
      = headerScanAux maxH 0 initHSt p :=
    headerScanAux_stop_at_coord maxH c rest hc p 0 initHSt hp
  unfold parseLines assembleRecord
  rw [hscan]
  have h1 := postProcessStoich_nonstoich (headerScanAux maxH 0 initHSt p)
    (collectAllText (p ++ c :: rest))
  have h2 := postProcessStoich_nonstoich (headerScanAux maxH 0 initHSt p)
    (collectAllText p)
  refine ⟨rfl, rfl, ?_, ?_, ?_, ?_, ?_, ?_, ?_⟩ <;>
    simp only [postProcess, h1.1, h1.2.1, h1.2.2.1, h1.2.2.2.1, h1.2.2.2.2.1,
               h1.2.2.2.2.2.1, h1.2.2.2.2.2.2, h2.1, h2.2.1, h2.2.2.1,
               h2.2.2.2.1, h2.2.2.2.2.1, h2.2.2.2.2.2.1, h2.2.2.2.2.2.2]

/-- Witness for C4 at a concrete file. -/
theorem c4_coordinate_line_halts_header_capture_witness :
    (parseLines (["TITLE: t"] ++ atomLine :: ["AUTHOR: z"]) 2000).remarks
      = (parseLines ["TITLE: t"] 2000).remarks ∧
    (parseLines (["TITLE: t"] ++ atomLine :: ["AUTHOR: z"]) 2000).other
      = (parseLines ["TITLE: t"] 2000).other ∧
    (parseLines (["TITLE: t"] ++ atomLine :: ["AUTHOR: z"]) 2000).score
      = (parseLines ["TITLE: t"] 2000).score ∧
    (parseLines (["TITLE: t"] ++ atomLine :: ["AUTHOR: z"]) 2000).method
      = (parseLines ["TITLE: t"] 2000).method ∧
    (parseLines (["TITLE: t"] ++ atomLine :: ["AUTHOR: z"]) 2000).author
      = (parseLines ["TITLE: t"] 2000).author ∧
    (parseLines (["TITLE: t"] ++ atomLine :: ["AUTHOR: z"]) 2000).model
      = (parseLines ["TITLE: t"] 2000).model ∧
    (parseLines (["TITLE: t"] ++ atomLine :: ["AUTHOR: z"]) 2000).format
      = (parseLines ["TITLE: t"] 2000).format ∧
    (parseLines (["TITLE: t"] ++ atomLine :: ["AUTHOR: z"]) 2000).title
      = (parseLines ["TITLE: t"] 2000).title ∧
    (parseLines (["TITLE: t"] ++ atomLine :: ["AUTHOR: z"]) 2000).compnd
      = (parseLines ["TITLE: t"] 2000).compnd :=
  c4_coordinate_line_halts_header_capture 2000 ["TITLE: t"] atomLine ["AUTHOR: z"]
    (by decide) (by decide)

theorem flatten_toList_eq_filterMap {α β : Type} (g : α → Option β) (l : List α) :
    (l.map (fun a => (g a).toList)).flatten = l.filterMap g := by
  induction l with
  | nil => rfl
  | cons x xs ih => cases hx : g x <;> simp [List.filterMap_cons, hx, ih]

/-- C7: for every record, Render prints exactly the fields STOICH, AUTHOR,
METHOD, SCORE, MODEL, in that order, under the labels Stoichiometry, Author,
Method, Score(s), Model, restricted to non-empty fields; when none of the
five is non-empty it emits the single "no recognized metadata fields found"
notice, and when the record is absent it emits the "no TS metadata
available" notice instead. -/
theorem c7_render_matches_spec (key : String) (meta : Option Record) :
    prettyPrintTrimmed key meta = renderSpecSide key meta := by
  cases meta with
  | none => rfl
  | some r =>
    have hfl : renderFieldLines r = printOrder.filterMap (fun k =>
        match r.getField k with
        | some v => if v ≠ "" then some (friendlyLabel k ++ ": " ++ v) else none
        | none => none) := by
      unfold renderFieldLines
      rw [← flatten_toList_eq_filterMap]
      refine congrArg List.flatten (List.map_congr_left ?_)
      intro k _
      cases h : r.getField k with
      | none => rfl
      | some v => by_cases hv : v = "" <;> simp [hv]
    dsimp only [prettyPrintTrimmed, renderSpecSide]
    rw [hfl]
    rfl

/-- C8: `attach_ts` with a nonexistent TS path reports the failure and
returns before touching the cache: the cache is exactly what it was. -/
theorem c8_attach_nonexistent_path_preserves_cache (fs : FS) (cache : Cache)
    (objs : List String) (tsPath objIdent : String)
    (h : pathExists fs (fs.expand tsPath) = false) :
    attachTs fs cache objs tsPath objIdent
      = (.tsNotFound (fs.expand tsPath), cache) := by
  unfold attachTs
  rw [h]
  simp

/-- The empty file system used by the C8 witness. -/
def fsEmpty : FS := ⟨[], id⟩

/-- Witness for C8 at a concrete cache and path. -/
theorem c8_attach_nonexistent_path_preserves_cache_witness :
    attachTs fsEmpty [("k", none)] ["o"] "nope.txt" "o"
      = (.tsNotFound ("nope.txt"), [("k", none)]) :=
  c8_attach_nonexistent_path_preserves_cache fsEmpty [("k", none)] ["o"]
    "nope.txt" "o" (by decide)

theorem get_setCanonVal (o : COut) (c : CanonKey) (v : String) :
    (setCanonVal o c v).get c = some v := by
  cases c <;> rfl

/-- The canonical branch of the loop body does not consult `other`, so its
result is independent of the keys currently stored there. -/
theorem classify_storeCanon_of (ks : List String) (i : Nat) (l : String)
    (c : CanonKey) (v : String)
    (hrem : strStartsWith (pyStrip (pyUpper l)) "REMARK" = false)
    (hid : identifyCanonicalKey (pyUpper l) (leftToken l) = some c)
    (hval : cleanLeadingFragment (extractValueFromLine l) = v)
    (hcoord : looksLikeCoordinateLine v = false)
    (hnoise : matchesNoiseValue v = false)
    (hne : v ≠ "") :
    classifyHeaderLine ks i l = .storeCanon c v := by
  unfold classifyHeaderLine
  rw [hrem]
  simp only [Bool.false_eq_true, if_false, hid, hval, hcoord, hnoise]
  simp [hne]

theorem headerScanAux_append_single (maxH : Nat) (l : String)
    (hblank : pyStrip l ≠ "") (hlc : looksLikeCoordinateLine l = false) :
    ∀ (p : List String) (i : Nat) (st : HSt),
      (∀ x ∈ p, looksLikeCoordinateLine x = false) →
      i + p.length ≤ maxH →
      headerScanAux maxH i st (p ++ [l])
        = processHeaderLine (headerScanAux maxH i st p) (i + p.length) l := by
  intro p
  induction p with
  | nil =>
    intro i st _ hcap
    have hnc : ¬ i > maxH := by simp at hcap; omega
    simp only [List.nil_append, headerScanAux, if_neg hnc, if_neg hblank, hlc,
               Bool.false_eq_true, if_false]
    simp [headerScanAux]
  | cons x p ih =>
    intro i st hp hcap
    have hx : looksLikeCoordinateLine x = false := hp x (by simp)
    have hp' : ∀ y ∈ p, looksLikeCoordinateLine y = false :=
      fun y hy => hp y (by simp [hy])
    have hnc : ¬ i > maxH := by simp at hcap; omega
    have hcap' : (i + 1) + p.length ≤ maxH := by simp at hcap; omega
    have hidx : (i + 1) + p.length = i + (x :: p).length := by simp; omega
    by_cases hb : pyStrip x = ""
    · simp only [List.cons_append, headerScanAux, if_neg hnc, if_pos hb, List.append_eq]
      rw [ih (i + 1) st hp' hcap', hidx]
    · simp only [List.cons_append, headerScanAux, if_neg hnc, if_neg hb, hx,
                 Bool.false_eq_true, if_false, List.append_eq]
      rw [ih (i + 1) (processHeaderLine st i x) hp' hcap', hidx]

/-- C9 (amended): among the header lines whose recognized canonical
occurrence actually stores a value — the extracted-and-cleaned value is
non-empty and not discarded as coordinate-like or numeric noise — the last
one wins: whatever came before, the scan's final value for that canonical
key is the value of that last line.  (A recognized occurrence whose value is
empty or discarded stores nothing and leaves the previous value, per the
counterexample.) -/
theorem c9_last_stored_occurrence_wins (maxH : Nat) (p : List String) (l : String)
    (c : CanonKey) (v : String)
    (hp : ∀ x ∈ p, looksLikeCoordinateLine x = false)
    (hcap : p.length ≤ maxH)
    (hblank : pyStrip l ≠ "")
    (hlc : looksLikeCoordinateLine l = false)
    (hrem : strStartsWith (pyStrip (pyUpper l)) "REMARK" = false)
    (hid : identifyCanonicalKey (pyUpper l) (leftToken l) = some c)
    (hval : cleanLeadingFragment (extractValueFromLine l) = v)
    (hcoord : looksLikeCoordinateLine v = false)
    (hnoise : matchesNoiseValue v = false)
    (hne : v ≠ "") :
    (headerScanAux maxH 0 initHSt (p ++ [l])).out.get c = some v := by
  rw [headerScanAux_append_single maxH l hblank hlc p 0 initHSt hp (by omega)]
  unfold processHeaderLine
  rw [classify_storeCanon_of _ _ _ _ _ hrem hid hval hcoord hnoise hne]
  exact get_setCanonVal _ c v

/-- Witness for C9: "METHOD: beta" after "METHOD: alpha" leaves beta. -/
theorem c9_last_stored_occurrence_wins_witness :
    (headerScanAux 2000 0 initHSt (["METHOD: alpha"] ++ ["METHOD: beta"])).out.get
      CanonKey.METHOD = some ("beta") :=
  c9_last_stored_occurrence_wins 2000 ["METHOD: alpha"] "METHOD: beta"
    CanonKey.METHOD ("beta") (by decide) (by decide) (by decide) (by decide)
    (by decide) (by decide) (by decide) (by decide) (by decide) (by decide)

/-- C10: `_parse_ts_metadata` returns a (non-absent) record for every
existing path — the record dict is always built and returned, whatever the
file contains — so `attach_ts` can never take its "parsing returned no
metadata" branch, and with an existing file and a resolvable object it
always stores a record in the cache. -/
theorem c10_parse_total_attach_never_parse_failed (fs : FS) (path : String)
    (maxH : Nat) (cache : Cache) (objs : List String) (ident : String) :
    (pathExists fs path = true → (parseTsMetadata fs path maxH).isSome = true) ∧
    (attachTs fs cache objs path ident).1 ≠ AttachOutcome.parseFailed ∧
    (pathExists fs (fs.expand path) = true → objs.contains ident = true →
      ∃ r : Record, attachTs fs cache objs path ident
        = (AttachOutcome.attached ident, cacheSet cache ident (some r))) := by
  have hparse : ∀ q : String, pathExists fs q = true →
      (parseTsMetadata fs q maxH).isSome = true := by
    intro q hq
    unfold parseTsMetadata
    rw [hq]
    rfl
  have hparse2000 : ∀ q : String, pathExists fs q = true →
      ∃ r : Record, parseTsMetadata fs q 2000 = some r := by
    intro q hq
    unfold parseTsMetadata
    rw [hq]
    exact ⟨_, rfl⟩
  refine ⟨hparse path, ?_, ?_⟩
  · unfold attachTs
    by_cases hex : pathExists fs (fs.expand path) = true
    · obtain ⟨r, hr⟩ := hparse2000 _ hex
      rw [hex]
      simp only [Bool.not_true, Bool.false_eq_true, if_false]
      split
      · unfold attachFinish
        rw [hr]
        simp
      · split
        · unfold attachFinish
          rw [hr]
          simp
        · simp
        · simp
    · rw [Bool.not_eq_true] at hex
      rw [hex]
      simp
  · intro hex hct
    obtain ⟨r, hr⟩ := hparse2000 _ hex
    unfold attachTs
    rw [hex, hct]
    simp only [Bool.not_true, Bool.false_eq_true, if_false, if_true]
    unfold attachFinish
    rw [hr]
    exact ⟨r, rfl⟩

/-- The file system used by the C10 witness. -/
def fsOne : FS := ⟨[("a.txt", ["TITLE: t"])], id⟩

/-- Witness for C10 at a concrete file system, path and object list. -/
theorem c10_parse_total_attach_never_parse_failed_witness :
    (parseTsMetadata fsOne ("a.txt") 2000).isSome = true ∧
    (∃ r : Record, attachTs fsOne [] ["o"] "a.txt" "o"
      = (AttachOutcome.attached ("o"), cacheSet [] "o" (some r))) :=
  ⟨(c10_parse_total_attach_never_parse_failed fsOne ("a.txt") 2000 [] ["o"] "o").1
     (by decide),
   (c10_parse_total_attach_never_parse_failed fsOne ("a.txt") 2000 [] ["o"] "o").2.2
     (by decide) (by decide)⟩

end PymolTs
